import Mathlib

/-!
# Verification of the goCep-k8s lookup core (`internal/cep/service.go`)

Shallow embedding of the cache-aside lookup protocol implemented by
`Service.Get` and its helpers (`normalizeCEP`, `formatCEP`,
`loadFromCache`, `saveToCache`, `fetchFromViaCEP`).

Modelling conventions:
* `time.Time` and `time.Duration` are modelled as `Int` (nanoseconds);
  `t.Sub(u)` is `t - u`, `d > ttl` is integer comparison.
* The external collaborators (PostgreSQL row scan, ViaCEP HTTP exchange,
  `encoding/json` decoding, the upsert outcome) are inputs of the model,
  collected in `Env`: each field records the outcome the external world
  would produce at the corresponding I/O step of one `Get` call.
* A stored payload is modelled as the *outcome* of `json.Unmarshal` on it
  (`Except String Response`): decoding an external byte string either
  yields a `Response` or an error, and that outcome is an input of the
  model.  Likewise the decoded HTTP body.
* `json.Marshal` of a `Response` (a struct of strings and a bool) cannot
  fail in Go, so serialization is modelled as the identity on records.
* Go's `len` on the strings involved is a byte count; every string it is
  applied to here consists of ASCII runes only (digits kept by
  `normalizeCEP`, or is returned unchanged), so character count and byte
  count coincide and `String.length` is faithful.
* Side effects of one `Get` call are made observable in `GetOutcome`:
  which key was used for the store read, the provider fetch and the
  write-back, if those steps ran at all.
-/

namespace GoCep

/-- `Response` mirrors the JSON structure returned by ViaCEP
(struct `Response` in service.go). -/
structure Response where
  Cep : String
  Logradouro : String
  Complemento : String
  Bairro : String
  Localidade : String
  Uf : String
  Ibge : String
  Gia : String
  DDD : String
  Siafi : String
  Unidade : String
  Erro : Bool
deriving Repr, DecidableEq

/-- Go error values produced or propagated by the lookup core.
`invalidCEP` is `ErrInvalidCEP`, `notFound` is `ErrNotFound`,
`upstream s` is `fmt.Errorf("viacep returned status %d", s)`,
`wrap m e` is `fmt.Errorf(m + ": %w", e)`, and `sqlErr` / `jsonErr` /
`transport` carry an opaque error from the database driver, the JSON
decoder and the HTTP transport respectively. -/
inductive GoError
  | invalidCEP
  | notFound
  | upstream (status : Nat)
  | sqlErr (msg : String)
  | jsonErr (msg : String)
  | transport (msg : String)
  | wrap (msg : String) (err : GoError)
deriving Repr, DecidableEq

/-- A Go `func() time.Time` value held in the `now` field: either the
package-level `time.Now` (ambient global time) or any other function. -/
inductive ClockFn
  | timeNow
  | custom (f : Unit → Int)

/-- Evaluating a stored clock function: `time.Now` returns whatever the
ambient wall clock reads at the call; a custom function returns its own
value. -/
def readClock (c : ClockFn) (ambient : Int) : Int :=
  match c with
  | .timeNow => ambient
  | .custom f => f ()

/-- Opaque handle for the `*sql.DB` constructor argument. -/
structure DBHandle where
  id : Nat
deriving Repr, DecidableEq

/-- Opaque handle for the `httpClient` constructor argument. -/
structure HTTPClientHandle where
  id : Nat
deriving Repr, DecidableEq

/-- Opaque handle for the `*log.Logger` constructor argument. -/
structure Logger where
  id : Nat
deriving Repr, DecidableEq

/-- The logger built by `log.New(log.Writer(), "", log.LstdFlags)` when
`NewService` receives a nil logger. -/
def defaultLogger : Logger := ⟨0⟩

/-- The `Service` struct of service.go. -/
structure Service where
  db : DBHandle
  client : HTTPClientHandle
  cacheTTL : Int
  logger : Logger
  now : ClockFn
  tableName : String

/-- `NewService` builds a `Service`; `cacheTTL <= 0` disables cache
expiration.  A nil logger (modelled as `none`) is replaced by the default
logger.  The `now` field is set to `time.Now`; the constructor has no
clock parameter. -/
def NewService (db : DBHandle) (client : HTTPClientHandle)
    (cacheTTL : Int) (logger : Option Logger) : Service :=
  let logger := match logger with
    | none => defaultLogger
    | some l => l
  { db := db, client := client, cacheTTL := cacheTTL, logger := logger,
    now := ClockFn.timeNow, tableName := "ceps" }

/-- The rune predicate of `normalizeCEP`: `r >= '0' && r <= '9'`. -/
def digitOnly (r : Char) : Bool :=
  decide ('0' ≤ r) && decide (r ≤ '9')

/-- The `strings.Map` in `normalizeCEP`: runes mapped to `-1` are
dropped, digit runes are kept, i.e. a filter. -/
def stripNonDigits (value : String) : String :=
  ⟨value.data.filter digitOnly⟩

/-- `normalizeCEP` strips non-digits and validates CEP length
(`len(onlyDigits) != 8` → `ErrInvalidCEP`). -/
def normalizeCEP (value : String) : Except GoError String :=
  let onlyDigits := stripNonDigits value
  if onlyDigits.length ≠ 8 then Except.error GoError.invalidCEP
  else Except.ok onlyDigits

/-- `formatCEP` adds the canonical hyphen to 8-digit CEP strings:
`value[:5] + "-" + value[5:]`, other lengths returned unchanged. -/
def formatCEP (value : String) : String :=
  if value.length ≠ 8 then value
  else value.take 5 ++ "-" ++ value.drop 5

instance {ε α : Type} [DecidableEq ε] [DecidableEq α] :
    DecidableEq (Except ε α) := fun x y =>
  match x, y with
  | .error e, .error e' =>
    if h : e = e' then .isTrue (by rw [h])
    else .isFalse (by intro hc; cases hc; exact h rfl)
  | .error _, .ok _ => .isFalse (by intro hc; cases hc)
  | .ok _, .error _ => .isFalse (by intro hc; cases hc)
  | .ok a, .ok b =>
    if h : a = b then .isTrue (by rw [h])
    else .isFalse (by intro hc; cases hc; exact h rfl)

/-- Outcome of `row.Scan` on the cache query
(`SELECT payload, updated_at FROM ceps WHERE cep = $1`):
no row (`sql.ErrNoRows`), a driver error, or a row holding a payload
(modelled by its decoding outcome) and the `updated_at` timestamp. -/
inductive ScanResult
  | noRows
  | scanErr (msg : String)
  | row (payload : Except String Response) (updatedAt : Int)
deriving Repr, DecidableEq

/-- Outcome of the ViaCEP HTTP exchange: a transport error from
`client.Do`, or a response with a status code and a body (modelled by
the outcome of decoding it as a `Response`). -/
inductive HTTPResult
  | transportErr (msg : String)
  | response (status : Nat) (body : Except String Response)
deriving Repr, DecidableEq

/-- The external world observed by one `Get` call: the row-scan outcome
for the requested key, the ambient wall-clock reading consumed by the
`s.now()` call in the TTL check, the HTTP exchange outcome, and the
error of the upsert `ExecContext` (`none` = success). -/
structure Env where
  scan : ScanResult
  ambientNow : Int
  http : HTTPResult
  writeErr : Option String
deriving Repr, DecidableEq

/-- `loadFromCache`: scan the row; `sql.ErrNoRows` is a miss (`nil, nil`),
any other scan error propagates; a found row is a logical miss when
`s.cacheTTL > 0 && s.now().Sub(updatedAt) > s.cacheTTL`; otherwise the
payload is unmarshalled (errors propagate) and returned. -/
def loadFromCache (s : Service) (scan : ScanResult) (ambient : Int) :
    Except GoError (Option Response) :=
  match scan with
  | .noRows => Except.ok none
  | .scanErr msg => Except.error (GoError.sqlErr msg)
  | .row payload updatedAt =>
    if s.cacheTTL > 0 ∧ readClock s.now ambient - updatedAt > s.cacheTTL then
      Except.ok none
    else
      match payload with
      | .error msg => Except.error (GoError.jsonErr msg)
      | .ok resp => Except.ok (some resp)

/-- `saveToCache`: marshal the record (cannot fail for this struct, see
module comment) and upsert; the result is the `ExecContext` error. -/
def saveToCache (writeErr : Option String) : Except GoError Unit :=
  match writeErr with
  | none => Except.ok ()
  | some msg => Except.error (GoError.sqlErr msg)

/-- `fetchFromViaCEP`: build the request (the URL printf on an 8-digit
key cannot fail), do it (transport errors propagate as-is), classify the
status (`404` → `ErrNotFound`, then `>= 400` → upstream error with the
status), decode the body (decoder errors propagate), reject a body with
`Erro` set (`ErrNotFound`), and fill an empty `Cep` field with
`formatCEP cep`. -/
def fetchFromViaCEP (http : HTTPResult) (cep : String) :
    Except GoError Response :=
  match http with
  | .transportErr msg => Except.error (GoError.transport msg)
  | .response status body =>
    if status = 404 then Except.error GoError.notFound
    else if status ≥ 400 then Except.error (GoError.upstream status)
    else
      match body with
      | .error msg => Except.error (GoError.jsonErr msg)
      | .ok b =>
        if b.Erro then Except.error GoError.notFound
        else if b.Cep = "" then Except.ok { b with Cep := formatCEP cep }
        else Except.ok b

/-- The observable outcome of one `Get` call: the returned value or
error, and which keys (if any) were handed to the store read, the
provider fetch, and the cache write-back (the written record paired with
its key). -/
structure GetOutcome where
  result : Except GoError Response
  readKey : Option String
  fetchKey : Option String
  written : Option (String × Response)
deriving Repr, DecidableEq

/-- `Get`: normalize (invalid input → `ErrInvalidCEP`, no I/O), read the
cache (errors wrapped as `"query cache: %w"`, a hit returned directly),
otherwise fetch from ViaCEP (errors returned as-is), attempt the
write-back whose failure is only logged, and return the fresh record. -/
def Get (s : Service) (env : Env) (rawCEP : String) : GetOutcome :=
  match normalizeCEP rawCEP with
  | .error _ => ⟨Except.error GoError.invalidCEP, none, none, none⟩
  | .ok cepDigits =>
    match loadFromCache s env.scan env.ambientNow with
    | .error e =>
      ⟨Except.error (GoError.wrap "query cache" e), some cepDigits, none, none⟩
    | .ok (some cached) =>
      ⟨Except.ok cached, some cepDigits, none, none⟩
    | .ok none =>
      match fetchFromViaCEP env.http cepDigits with
      | .error e =>
        ⟨Except.error e, some cepDigits, some cepDigits, none⟩
      | .ok fresh =>
        let outcome : GetOutcome :=
          ⟨Except.ok fresh, some cepDigits, some cepDigits,
            some (cepDigits, fresh)⟩
        match saveToCache env.writeErr with
        | .error _ => outcome
        | .ok _ => outcome

/-! ## Sample values used by the witnesses -/

/-- A provider record with a non-empty `Cep` field and `Erro` unset. -/
def sampleResponse : Response :=
  ⟨"12345-678", "Rua Teste", "", "Centro", "Cidade", "ST", "0000000",
    "", "", "", "", false⟩

/-- A provider record whose own `Cep` field is empty. -/
def emptyCepResponse : Response :=
  ⟨"", "Rua Nova", "", "Bairro", "Cidade", "ST", "1234567",
    "", "", "", "", false⟩

/-- A service built by the constructor with a 3600ns TTL (the magnitude
is irrelevant to the protocol, only comparisons matter). -/
def sampleService : Service := NewService ⟨0⟩ ⟨0⟩ 3600 none

/-! ## Unfolding lemmas for `Get` -/

theorem Get_invalid (s : Service) (env : Env) (raw : String)
    (h : (stripNonDigits raw).length ≠ 8) :
    Get s env raw = ⟨Except.error GoError.invalidCEP, none, none, none⟩ := by
  simp [Get, normalizeCEP, h]

theorem Get_cacheErr (s : Service) (env : Env) (raw key : String)
    (e : GoError)
    (hkey : normalizeCEP raw = Except.ok key)
    (hload : loadFromCache s env.scan env.ambientNow = Except.error e) :
    Get s env raw =
      ⟨Except.error (GoError.wrap "query cache" e), some key, none, none⟩ := by
  simp [Get, hkey, hload]

theorem Get_hit (s : Service) (env : Env) (raw key : String) (r : Response)
    (hkey : normalizeCEP raw = Except.ok key)
    (hload : loadFromCache s env.scan env.ambientNow = Except.ok (some r)) :
    Get s env raw = ⟨Except.ok r, some key, none, none⟩ := by
  simp [Get, hkey, hload]

theorem Get_fetchErr (s : Service) (env : Env) (raw key : String)
    (e : GoError)
    (hkey : normalizeCEP raw = Except.ok key)
    (hload : loadFromCache s env.scan env.ambientNow = Except.ok none)
    (hfetch : fetchFromViaCEP env.http key = Except.error e) :
    Get s env raw = ⟨Except.error e, some key, some key, none⟩ := by
  simp [Get, hkey, hload, hfetch]

theorem Get_fetchOk (s : Service) (env : Env) (raw key : String)
    (fresh : Response)
    (hkey : normalizeCEP raw = Except.ok key)
    (hload : loadFromCache s env.scan env.ambientNow = Except.ok none)
    (hfetch : fetchFromViaCEP env.http key = Except.ok fresh) :
    Get s env raw =
      ⟨Except.ok fresh, some key, some key, some (key, fresh)⟩ := by
  cases hw : saveToCache env.writeErr <;>
    simp [Get, hkey, hload, hfetch, hw]

/-! ## Helper lemmas about the pure helpers -/

theorem stripNonDigits_idem (v : String) :
    stripNonDigits (stripNonDigits v) = stripNonDigits v := by
  show (⟨(v.data.filter digitOnly).filter digitOnly⟩ : String)
      = ⟨v.data.filter digitOnly⟩
  congr 1
  exact List.filter_eq_self.mpr fun a ha => List.of_mem_filter ha

theorem normalizeCEP_ok (v d : String) (h : normalizeCEP v = Except.ok d) :
    d = stripNonDigits v ∧ (stripNonDigits v).length = 8 := by
  by_cases hl : (stripNonDigits v).length ≠ 8
  · simp [normalizeCEP, hl] at h
  · simp [normalizeCEP, hl] at h
    exact ⟨h.symm, by omega⟩

theorem normalizeCEP_ok_length (v d : String)
    (h : normalizeCEP v = Except.ok d) : d.length = 8 := by
  obtain ⟨hd, hl⟩ := normalizeCEP_ok v d h
  rw [hd]; exact hl

theorem normalizeCEP_ok_digits (v d : String)
    (h : normalizeCEP v = Except.ok d) :
    ∀ c ∈ d.data, digitOnly c = true := by
  obtain ⟨hd, _⟩ := normalizeCEP_ok v d h
  subst hd
  intro c hc
  exact List.of_mem_filter hc

theorem fetchFromViaCEP_ne_invalid (http : HTTPResult) (k : String) :
    fetchFromViaCEP http k ≠ Except.error GoError.invalidCEP := by
  unfold fetchFromViaCEP
  rcases http with msg | ⟨status, body⟩
  · simp
  · by_cases h404 : status = 404
    · simp [h404]
    · by_cases h400 : status ≥ 400
      · simp [h404, h400]
      · rcases body with msg | b
        · simp [h404, h400]
        · by_cases herr : b.Erro
          · simp [h404, h400, herr]
          · by_cases hcep : b.Cep = "" <;> simp [h404, h400, herr, hcep]

theorem fetchFromViaCEP_ok_erro (http : HTTPResult) (k : String)
    (r : Response) (h : fetchFromViaCEP http k = Except.ok r) :
    r.Erro = false := by
  unfold fetchFromViaCEP at h
  rcases http with msg | ⟨status, body⟩
  · simp at h
  · by_cases h404 : status = 404
    · simp [h404] at h
    · by_cases h400 : status ≥ 400
      · simp [h404, h400] at h
      · rcases body with msg | b
        · simp [h404, h400] at h
        · by_cases herr : b.Erro
          · simp [h404, h400, herr] at h
          · by_cases hcep : b.Cep = ""
            · simp [h404, h400, herr, hcep] at h
              subst h
              simp [herr]
            · simp [h404, h400, herr, hcep] at h
              subst h
              simpa using herr

theorem loadFromCache_noRows (s : Service) (amb : Int) :
    loadFromCache s ScanResult.noRows amb = Except.ok none := rfl

theorem loadFromCache_scanErr (s : Service) (msg : String) (amb : Int) :
    loadFromCache s (ScanResult.scanErr msg) amb =
      Except.error (GoError.sqlErr msg) := rfl

theorem loadFromCache_expired (s : Service) (p : Except String Response)
    (upd amb : Int) (h1 : 0 < s.cacheTTL)
    (h2 : readClock s.now amb - upd > s.cacheTTL) :
    loadFromCache s (ScanResult.row p upd) amb = Except.ok none := by
  simp only [loadFromCache]
  rw [if_pos ⟨h1, h2⟩]

theorem loadFromCache_live_ok (s : Service) (r : Response) (upd amb : Int)
    (h : ¬(0 < s.cacheTTL ∧ readClock s.now amb - upd > s.cacheTTL)) :
    loadFromCache s (ScanResult.row (Except.ok r) upd) amb =
      Except.ok (some r) := by
  simp only [loadFromCache]
  rw [if_neg h]

theorem loadFromCache_live_err (s : Service) (msg : String) (upd amb : Int)
    (h : ¬(0 < s.cacheTTL ∧ readClock s.now amb - upd > s.cacheTTL)) :
    loadFromCache s (ScanResult.row (Except.error msg) upd) amb =
      Except.error (GoError.jsonErr msg) := by
  simp only [loadFromCache]
  rw [if_neg h]

theorem normalizeCEP_err_length (v : String) (e : GoError)
    (h : normalizeCEP v = Except.error e) :
    (stripNonDigits v).length ≠ 8 := by
  intro hc
  simp [normalizeCEP, hc] at h

theorem Get_result_ne_invalid (s : Service) (env : Env) (raw key : String)
    (hkey : normalizeCEP raw = Except.ok key) :
    (Get s env raw).result ≠ Except.error GoError.invalidCEP := by
  rcases hload : loadFromCache s env.scan env.ambientNow with e | o
  · rw [Get_cacheErr s env raw key e hkey hload]
    simp
  · rcases o with _ | r
    · rcases hf : fetchFromViaCEP env.http key with e | fr
      · rw [Get_fetchErr s env raw key e hkey hload hf]
        intro hc
        simp at hc
        subst hc
        exact fetchFromViaCEP_ne_invalid env.http key hf
      · rw [Get_fetchOk s env raw key fr hkey hload hf]
        simp
    · rw [Get_hit s env raw key r hkey hload]
      simp

theorem Get_keys (s : Service) (env : Env) (raw k : String)
    (hk : (Get s env raw).readKey = some k ∨
      (Get s env raw).fetchKey = some k ∨
      (∃ r, (Get s env raw).written = some (k, r))) :
    normalizeCEP raw = Except.ok k := by
  rcases hn : normalizeCEP raw with e | key
  · rw [Get_invalid s env raw (normalizeCEP_err_length raw e hn)] at hk
    simp at hk
  · rcases hload : loadFromCache s env.scan env.ambientNow with e | o
    · rw [Get_cacheErr s env raw key e hn hload] at hk
      simp at hk
      subst hk
      rfl
    · rcases o with _ | r
      · rcases hf : fetchFromViaCEP env.http key with e | fr
        · rw [Get_fetchErr s env raw key e hn hload hf] at hk
          simp at hk
          subst hk
          rfl
        · rw [Get_fetchOk s env raw key fr hn hload hf] at hk
          simp at hk
          subst hk
          rfl
      · rw [Get_hit s env raw key r hn hload] at hk
        simp at hk
        subst hk
        rfl

theorem Get_written_inv (s : Service) (env : Env) (raw k : String)
    (rec : Response)
    (hw : (Get s env raw).written = some (k, rec)) :
    (Get s env raw).fetchKey = some k ∧
      fetchFromViaCEP env.http k = Except.ok rec ∧
      (Get s env raw).result = Except.ok rec := by
  rcases hn : normalizeCEP raw with e | key
  · rw [Get_invalid s env raw (normalizeCEP_err_length raw e hn)] at hw
    simp at hw
  · rcases hload : loadFromCache s env.scan env.ambientNow with e | o
    · rw [Get_cacheErr s env raw key e hn hload] at hw
      simp at hw
    · rcases o with _ | r
      · rcases hf : fetchFromViaCEP env.http key with e | fr
        · rw [Get_fetchErr s env raw key e hn hload hf] at hw
          simp at hw
        · have h := Get_fetchOk s env raw key fr hn hload hf
          rw [h] at hw
          simp at hw
          obtain ⟨rfl, rfl⟩ := hw
          rw [h]
          exact ⟨rfl, hf, rfl⟩
      · rw [Get_hit s env raw key r hn hload] at hw
        simp at hw

theorem Get_fetch_inv (s : Service) (env : Env) (raw k : String)
    (fresh : Response)
    (hfk : (Get s env raw).fetchKey = some k)
    (hres : (Get s env raw).result = Except.ok fresh) :
    fetchFromViaCEP env.http k = Except.ok fresh := by
  rcases hn : normalizeCEP raw with e | key
  · rw [Get_invalid s env raw (normalizeCEP_err_length raw e hn)] at hfk
    simp at hfk
  · rcases hload : loadFromCache s env.scan env.ambientNow with e | o
    · rw [Get_cacheErr s env raw key e hn hload] at hfk
      simp at hfk
    · rcases o with _ | r
      · rcases hf : fetchFromViaCEP env.http key with e | fr
        · rw [Get_fetchErr s env raw key e hn hload hf] at hres
          simp at hres
        · rw [Get_fetchOk s env raw key fr hn hload hf] at hfk hres
          simp at hfk hres
          subst hfk
          subst hres
          exact hf
      · rw [Get_hit s env raw key r hn hload] at hfk
        simp at hfk

/-! ## Claim theorems -/

/-- C9: normalization is idempotent — renormalizing the output of a
successful normalization returns the same 8-digit string; moreover
`normalizeCEP "12345-678"` yields `"12345678"` and
`normalizeCEP "12-345"` fails with `ErrInvalidCEP`. -/
theorem normalizeCEP_idempotent :
    (∀ v d, normalizeCEP v = Except.ok d → normalizeCEP d = Except.ok d) ∧
    normalizeCEP "12345-678" = Except.ok "12345678" ∧
    normalizeCEP "12-345" = Except.error GoError.invalidCEP := by
  refine ⟨?_, by decide, by decide⟩
  intro v d h
  obtain ⟨hd, hl⟩ := normalizeCEP_ok v d h
  subst hd
  have hidem := stripNonDigits_idem v
  simp [normalizeCEP, hidem, hl]

theorem normalizeCEP_idempotent_witness :
    normalizeCEP "12345678" = Except.ok "12345678" :=
  normalizeCEP_idempotent.1 "12345-678" "12345678" (by decide)

/-- C5: provider fetch classification — status 404 yields `ErrNotFound`,
any other status ≥ 400 yields the upstream error carrying the status, a
success whose body has `Erro` set yields `ErrNotFound`, and a transport
failure propagates as-is. -/
theorem fetchFromViaCEP_classification (key : String) :
    (∀ body, fetchFromViaCEP (HTTPResult.response 404 body) key =
      Except.error GoError.notFound) ∧
    (∀ status body, 400 ≤ status → status ≠ 404 →
      fetchFromViaCEP (HTTPResult.response status body) key =
        Except.error (GoError.upstream status)) ∧
    (∀ status b, status < 400 → b.Erro = true →
      fetchFromViaCEP (HTTPResult.response status (Except.ok b)) key =
        Except.error GoError.notFound) ∧
    (∀ msg, fetchFromViaCEP (HTTPResult.transportErr msg) key =
      Except.error (GoError.transport msg)) := by
  refine ⟨fun body => rfl, ?_, ?_, fun msg => rfl⟩
  · intro status body h400 h404
    simp [fetchFromViaCEP, h404, h400]
  · intro status b hlt herr
    have h404 : status ≠ 404 := by omega
    have h400 : ¬(status ≥ 400) := by omega
    simp [fetchFromViaCEP, h404, h400, herr]

theorem fetchFromViaCEP_classification_witness :
    fetchFromViaCEP (HTTPResult.response 503 (Except.error "boom"))
        "12345678" = Except.error (GoError.upstream 503) :=
  (fetchFromViaCEP_classification "12345678").2.1 503 (Except.error "boom")
    (by decide) (by decide)

/-- C1: for a `Get` whose normalized key is found in the store: with
`cacheTTL ≤ 0` the cached record is returned with no expiry check (for
every clock reading and timestamp); with `cacheTTL > 0` and
`now() - updatedAt` strictly greater than the TTL the entry is treated
as a miss and the provider is fetched; otherwise the deserialized cached
record is returned. -/
theorem get_ttl_semantics (s : Service) (env : Env) (raw key : String)
    (r : Response) (upd : Int)
    (hkey : normalizeCEP raw = Except.ok key)
    (hscan : env.scan = ScanResult.row (Except.ok r) upd) :
    (s.cacheTTL ≤ 0 → (Get s env raw).result = Except.ok r) ∧
    (0 < s.cacheTTL → readClock s.now env.ambientNow - upd > s.cacheTTL →
      (Get s env raw).fetchKey = some key) ∧
    (0 < s.cacheTTL → readClock s.now env.ambientNow - upd ≤ s.cacheTTL →
      (Get s env raw).result = Except.ok r) := by
  refine ⟨?_, ?_, ?_⟩
  · intro httl
    have hload : loadFromCache s env.scan env.ambientNow =
        Except.ok (some r) := by
      rw [hscan]
      exact loadFromCache_live_ok s r upd env.ambientNow (by omega)
    rw [Get_hit s env raw key r hkey hload]
  · intro h1 h2
    have hload : loadFromCache s env.scan env.ambientNow =
        Except.ok none := by
      rw [hscan]
      exact loadFromCache_expired s _ upd env.ambientNow h1 h2
    rcases hf : fetchFromViaCEP env.http key with e | fr
    · rw [Get_fetchErr s env raw key e hkey hload hf]
    · rw [Get_fetchOk s env raw key fr hkey hload hf]
  · intro h1 h2
    have hload : loadFromCache s env.scan env.ambientNow =
        Except.ok (some r) := by
      rw [hscan]
      exact loadFromCache_live_ok s r upd env.ambientNow (by omega)
    rw [Get_hit s env raw key r hkey hload]

theorem get_ttl_semantics_witness :
    (Get sampleService
        ⟨ScanResult.row (Except.ok sampleResponse) 100, 200,
          HTTPResult.response 500 (Except.error "x"), none⟩
        "12345-678").result = Except.ok sampleResponse := by
  have h := get_ttl_semantics sampleService
      ⟨ScanResult.row (Except.ok sampleResponse) 100, 200,
        HTTPResult.response 500 (Except.error "x"), none⟩
      "12345-678" "12345678" sampleResponse 100 (by decide) rfl
  exact h.2.2 (by decide) (by decide)

/-- C2: a store read failing with anything but `sql.ErrNoRows`
(including a deserialization failure of a live row's payload) makes
`Get` return that error wrapped as `"query cache: %w"` and the provider
is never fetched; `sql.ErrNoRows` is instead a plain miss and the fetch
proceeds. -/
theorem get_cache_read_error (s : Service) (env : Env) (raw key : String)
    (hkey : normalizeCEP raw = Except.ok key) :
    (∀ msg, env.scan = ScanResult.scanErr msg →
      (Get s env raw).result =
          Except.error (GoError.wrap "query cache" (GoError.sqlErr msg)) ∧
        (Get s env raw).fetchKey = none) ∧
    (∀ msg upd, env.scan = ScanResult.row (Except.error msg) upd →
      ¬(0 < s.cacheTTL ∧ readClock s.now env.ambientNow - upd > s.cacheTTL) →
      (Get s env raw).result =
          Except.error (GoError.wrap "query cache" (GoError.jsonErr msg)) ∧
        (Get s env raw).fetchKey = none) ∧
    (env.scan = ScanResult.noRows → (Get s env raw).fetchKey = some key) := by
  refine ⟨?_, ?_, ?_⟩
  · intro msg hscan
    have hload : loadFromCache s env.scan env.ambientNow =
        Except.error (GoError.sqlErr msg) := by
      rw [hscan]
      exact loadFromCache_scanErr s msg env.ambientNow
    rw [Get_cacheErr s env raw key _ hkey hload]
    exact ⟨rfl, rfl⟩
  · intro msg upd hscan hlive
    have hload : loadFromCache s env.scan env.ambientNow =
        Except.error (GoError.jsonErr msg) := by
      rw [hscan]
      exact loadFromCache_live_err s msg upd env.ambientNow hlive
    rw [Get_cacheErr s env raw key _ hkey hload]
    exact ⟨rfl, rfl⟩
  · intro hscan
    have hload : loadFromCache s env.scan env.ambientNow =
        Except.ok none := by
      rw [hscan]
      exact loadFromCache_noRows s env.ambientNow
    rcases hf : fetchFromViaCEP env.http key with e | fr
    · rw [Get_fetchErr s env raw key e hkey hload hf]
    · rw [Get_fetchOk s env raw key fr hkey hload hf]

theorem get_cache_read_error_witness :
    (Get sampleService
        ⟨ScanResult.scanErr "io failure", 0,
          HTTPResult.response 200 (Except.ok sampleResponse), none⟩
        "12345-678").result =
      Except.error (GoError.wrap "query cache" (GoError.sqlErr "io failure")) := by
  have h := get_cache_read_error sampleService
      ⟨ScanResult.scanErr "io failure", 0,
        HTTPResult.response 200 (Except.ok sampleResponse), none⟩
      "12345-678" "12345678" (by decide)
  exact (h.1 "io failure" rfl).1

/-- C3: when `Get` reaches a successful provider fetch it returns the
fresh record with no error; the cache upsert is attempted but its
failure (any `writeErr`) never surfaces to the caller. -/
theorem get_write_failure_nonfatal (s : Service) (env : Env)
    (raw key : String) (fresh : Response)
    (hkey : normalizeCEP raw = Except.ok key)
    (hmiss : loadFromCache s env.scan env.ambientNow = Except.ok none)
    (hfetch : fetchFromViaCEP env.http key = Except.ok fresh) :
    (Get s env raw).result = Except.ok fresh ∧
    (Get s env raw).written = some (key, fresh) ∧
    (∀ msg, (Get s { env with writeErr := some msg } raw).result =
      Except.ok fresh) := by
  have h := Get_fetchOk s env raw key fresh hkey hmiss hfetch
  refine ⟨by rw [h], by rw [h], ?_⟩
  intro msg
  have h2 := Get_fetchOk s { env with writeErr := some msg } raw key fresh
      hkey hmiss hfetch
  rw [h2]

theorem get_write_failure_nonfatal_witness :
    (Get sampleService
        ⟨ScanResult.noRows, 0,
          HTTPResult.response 200 (Except.ok sampleResponse),
          some "disk full"⟩
        "12345-678").result = Except.ok sampleResponse := by
  have h := get_write_failure_nonfatal sampleService
      ⟨ScanResult.noRows, 0,
        HTTPResult.response 200 (Except.ok sampleResponse),
        some "disk full"⟩
      "12345-678" "12345678" sampleResponse
      (by decide) (by decide) (by decide)
  exact h.1

/-- C4: `Get` fails with `ErrInvalidCEP` exactly when the digit-stripped
input does not have exactly 8 digits; in that case no store read,
provider fetch or write-back happens; and every key handed to the store,
the provider or the write-back has exactly 8 characters, all digits. -/
theorem get_invalid_key (s : Service) (env : Env) (raw : String) :
    ((Get s env raw).result = Except.error GoError.invalidCEP ↔
      (stripNonDigits raw).length ≠ 8) ∧
    ((stripNonDigits raw).length ≠ 8 →
      (Get s env raw).readKey = none ∧ (Get s env raw).fetchKey = none ∧
        (Get s env raw).written = none) ∧
    (∀ k, ((Get s env raw).readKey = some k ∨
        (Get s env raw).fetchKey = some k ∨
        (∃ r, (Get s env raw).written = some (k, r))) →
      k.length = 8 ∧ ∀ c ∈ k.data, digitOnly c = true) := by
  refine ⟨?_, ?_, fun k hk =>
    ⟨normalizeCEP_ok_length raw k (Get_keys s env raw k hk),
      normalizeCEP_ok_digits raw k (Get_keys s env raw k hk)⟩⟩
  · by_cases hl : (stripNonDigits raw).length ≠ 8
    · exact ⟨fun _ => hl, fun _ => by rw [Get_invalid s env raw hl]⟩
    · constructor
      · intro hres
        have hkey : normalizeCEP raw = Except.ok (stripNonDigits raw) := by
          simp [normalizeCEP, hl]
        exact absurd hres (Get_result_ne_invalid s env raw _ hkey)
      · intro h8
        exact absurd h8 hl
  · intro hl
    rw [Get_invalid s env raw hl]
    exact ⟨rfl, rfl, rfl⟩

theorem get_invalid_key_witness :
    (Get sampleService
        ⟨ScanResult.noRows, 0,
          HTTPResult.response 200 (Except.ok sampleResponse), none⟩
        "12-345").result = Except.error GoError.invalidCEP := by
  have h := get_invalid_key sampleService
      ⟨ScanResult.noRows, 0,
        HTTPResult.response 200 (Except.ok sampleResponse), none⟩
      "12-345"
  exact h.1.mpr (by decide)

/-- C6: a cache hit (found and live) returns the cached record with no
provider call and no write-back; and a write-back happens only in a call
whose provider fetch ran and succeeded, writing exactly the fetched
record under the fetched key. -/
theorem get_hit_frame (s : Service) :
    (∀ env raw key r, normalizeCEP raw = Except.ok key →
      loadFromCache s env.scan env.ambientNow = Except.ok (some r) →
      (Get s env raw).result = Except.ok r ∧
        (Get s env raw).fetchKey = none ∧
        (Get s env raw).written = none) ∧
    (∀ env raw k rec, (Get s env raw).written = some (k, rec) →
      (Get s env raw).fetchKey = some k ∧
        fetchFromViaCEP env.http k = Except.ok rec ∧
        (Get s env raw).result = Except.ok rec) := by
  constructor
  · intro env raw key r hkey hload
    rw [Get_hit s env raw key r hkey hload]
    exact ⟨rfl, rfl, rfl⟩
  · intro env raw k rec hw
    exact Get_written_inv s env raw k rec hw

theorem get_hit_frame_witness :
    (Get sampleService
        ⟨ScanResult.row (Except.ok sampleResponse) 100, 200,
          HTTPResult.response 500 (Except.error "x"), none⟩
        "12345-678").fetchKey = none := by
  have h := get_hit_frame sampleService
  exact (h.1
      ⟨ScanResult.row (Except.ok sampleResponse) 100, 200,
        HTTPResult.response 500 (Except.error "x"), none⟩
      "12345-678" "12345678" sampleResponse (by decide) (by decide)).2.1

/-- C7: on the fetch path, a successful provider body whose own `Cep`
field is empty is returned with `Cep` set to the hyphenated form of the
normalized key — its first 5 characters, a hyphen, then the remaining 3;
a non-empty provider-supplied `Cep` is returned unchanged. -/
theorem get_fills_empty_cep (s : Service) (env : Env) (raw key : String)
    (status : Nat) (b : Response)
    (hkey : normalizeCEP raw = Except.ok key)
    (hmiss : loadFromCache s env.scan env.ambientNow = Except.ok none)
    (hhttp : env.http = HTTPResult.response status (Except.ok b))
    (hstatus : status < 400) (herro : b.Erro = false) :
    (b.Cep = "" → (Get s env raw).result =
      Except.ok { b with Cep := key.take 5 ++ "-" ++ key.drop 5 }) ∧
    (b.Cep ≠ "" → (Get s env raw).result = Except.ok b) := by
  have h404 : status ≠ 404 := by omega
  have h400 : ¬(status ≥ 400) := by omega
  have hlen : key.length = 8 := normalizeCEP_ok_length raw key hkey
  constructor
  · intro hcep
    have hfetch : fetchFromViaCEP env.http key =
        Except.ok { b with Cep := formatCEP key } := by
      rw [hhttp]
      simp [fetchFromViaCEP, h404, h400, herro, hcep]
    have hfmt : formatCEP key = key.take 5 ++ "-" ++ key.drop 5 := by
      simp [formatCEP, hlen]
    rw [Get_fetchOk s env raw key _ hkey hmiss hfetch, hfmt]
  · intro hcep
    have hfetch : fetchFromViaCEP env.http key = Except.ok b := by
      rw [hhttp]
      simp [fetchFromViaCEP, h404, h400, herro, hcep]
    rw [Get_fetchOk s env raw key b hkey hmiss hfetch]

theorem get_fills_empty_cep_witness :
    (Get sampleService
        ⟨ScanResult.noRows, 0,
          HTTPResult.response 200 (Except.ok emptyCepResponse), none⟩
        "76543-210").result =
      Except.ok { emptyCepResponse with Cep := "76543-210" } := by
  have h := get_fills_empty_cep sampleService
      ⟨ScanResult.noRows, 0,
        HTTPResult.response 200 (Except.ok emptyCepResponse), none⟩
      "76543-210" "76543210" 200 emptyCepResponse
      (by decide) (by decide) rfl (by decide) rfl
  rw [h.1 rfl]
  decide

/-- C10: every record `Get` returns via the provider-fetch path has
`Erro = false`, and every record the service hands to the cache
write-back (hence every payload it serializes into the store) has
`Erro = false`: a soft not-found body becomes `ErrNotFound` before the
write-back can run. -/
theorem get_fetch_path_erro_false (s : Service) (env : Env)
    (raw : String) :
    (∀ k fresh, (Get s env raw).fetchKey = some k →
      (Get s env raw).result = Except.ok fresh → fresh.Erro = false) ∧
    (∀ k rec, (Get s env raw).written = some (k, rec) →
      rec.Erro = false) := by
  constructor
  · intro k fresh hfk hres
    exact fetchFromViaCEP_ok_erro env.http k fresh
      (Get_fetch_inv s env raw k fresh hfk hres)
  · intro k rec hw
    exact fetchFromViaCEP_ok_erro env.http k rec
      (Get_written_inv s env raw k rec hw).2.1

theorem get_fetch_path_erro_false_witness :
    sampleResponse.Erro = false := by
  have h := get_fetch_path_erro_false sampleService
      ⟨ScanResult.noRows, 0,
        HTTPResult.response 200 (Except.ok sampleResponse), none⟩
      "12345-678"
  exact h.2 "12345678" sampleResponse (by decide)

/-- C8 counterexample: the claim says the clock used for TTL checks and
write-back timestamps is constructor-injected so that a caller of
`NewService` can substitute a clock other than ambient global time; but
`NewService` has no clock parameter, and at concrete constructor
arguments — varying every parameter it does have — the stored clock is
always the ambient `time.Now`. -/
theorem newService_clock_counterexample :
    (NewService ⟨0⟩ ⟨0⟩ 0 none).now = ClockFn.timeNow ∧
    (NewService ⟨1⟩ ⟨2⟩ 3600000000000 (some ⟨7⟩)).now = ClockFn.timeNow :=
  ⟨rfl, rfl⟩

/-- C8 amended: the clock used by the service is stored in the per-
instance `now` field set at construction, but `NewService` takes no
clock argument and always sets that field to the ambient global
`time.Now`; no argument of `NewService` yields a different clock. -/
theorem newService_clock_always_ambient (db : DBHandle)
    (client : HTTPClientHandle) (cacheTTL : Int)
    (logger : Option Logger) :
    (NewService db client cacheTTL logger).now = ClockFn.timeNow := rfl

end GoCep
